import Mathlib

/-!
Verification development for the softfoundry repository.

The definitions below are shallow embeddings of the Python code in
src/softfoundry/utils/{state.py, status.py, sessions.py, loop.py}.
Pure functions become Lean functions; file-system reads become explicit
inputs; exceptions become Option/Except values; the signal handler and
the agent loop become explicit state-passing step functions.
-/

/-! ## state.py: enums -/

/-- ProgrammerState from state.py (possible states for a programmer agent). -/
inductive ProgrammerState
  | NOT_REGISTERED
  | AVAILABLE
  | ASSIGNED
  | WORKING
deriving DecidableEq, Repr

/-- TaskState from state.py (possible states for a task). -/
inductive TaskState
  | PENDING
  | IN_PROGRESS
  | COMPLETED
deriving DecidableEq, Repr

/-- ManagerState from state.py (possible states for the manager agent). -/
inductive ManagerState
  | INITIAL
  | ASSIGNING
  | MONITORING
  | COMPLETED
deriving DecidableEq, Repr

/-! ## state.py: parse_status_field

The Python code uses
  re.search(rf"##\s*{re.escape(field)}\s*\n+(?:<!--.*?-->\s*\n+)?([^\n#]+)",
            content, re.IGNORECASE)
We embed this specific pattern as a backtracking matcher over `List Char`,
mirroring regex semantics: leftmost match position, greedy `\s*` and `\n+`,
lazy `.*?`, optional group tried present-first, and the capture group
`[^\n#]+` taken greedily.  Case folding is modelled for ASCII. -/

/-- Python regex `\s` over ASCII text: space, tab, newline, carriage return,
vertical tab, form feed. -/
def isPySpace (c : Char) : Bool :=
  c == ' ' || c == '\t' || c == '\n' || c == '\r' || c == '\x0b' || c == '\x0c'

/-- ASCII uppercase test. -/
def isAsciiUpper (c : Char) : Bool :=
  65 ≤ c.toNat && c.toNat ≤ 90

/-- Case-insensitive character equality (ASCII folding), modelling
re.IGNORECASE: equal, or one is the ASCII uppercase of the other. -/
def ciEq (a b : Char) : Bool :=
  a == b || (isAsciiUpper a && b.toNat == a.toNat + 32)
    || (isAsciiUpper b && a.toNat == b.toNat + 32)

/-- Remainders after consuming a greedy `p*`, in backtracking priority order
(maximal consumption first, down to consuming nothing). -/
def greedyStar (p : Char → Bool) : List Char → List (List Char)
  | [] => [[]]
  | c :: cs => if p c then greedyStar p cs ++ [c :: cs] else [c :: cs]

/-- Remainders after consuming a greedy `\n+` (at least one newline),
in priority order (maximal first). -/
def newlinePlus : List Char → List (List Char)
  | [] => []
  | c :: cs => if c = '\n' then greedyStar (fun d => d = '\n') cs else []

/-- Remainders after the regex fragment `\s*\n+`, in backtracking priority
order: greedy `\s*` outer, greedy `\n+` inner. -/
def spaceStarNewlinePlus (cs : List Char) : List (List Char) :=
  (greedyStar isPySpace cs).flatMap newlinePlus

/-- Remainders for the lazy `.*?` (shortest first; `.` does not match a
newline since DOTALL is off). -/
def lazyDotStar : List Char → List (List Char)
  | [] => [[]]
  | c :: cs => (c :: cs) :: (if c = '\n' then [] else lazyDotStar cs)

/-- Match a literal (case-insensitively) at the head, returning the
remainder. -/
def matchLitCI : List Char → List Char → Option (List Char)
  | [], cs => some cs
  | _ :: _, [] => none
  | l :: ls, c :: cs => if ciEq l c then matchLitCI ls cs else none

/-- The capture group `([^\n#]+)`: a greedy nonempty run of characters that
are neither a newline nor a hash. -/
def matchCapture (cs : List Char) : Option (List Char) :=
  let v := cs.takeWhile (fun c => !(c = '\n') && !(c = '#'))
  if v.isEmpty then none else some v

/-- The comment alternative of the optional group,
`<!--.*?-->\s*\n+` followed by the capture. -/
def matchCommentThenCapture (cs : List Char) : Option (List Char) :=
  match matchLitCI ['<', '!', '-', '-'] cs with
  | none => none
  | some cs1 =>
    (lazyDotStar cs1).findSome? fun cs2 =>
      match matchLitCI ['-', '-', '>'] cs2 with
      | none => none
      | some cs3 =>
        (spaceStarNewlinePlus cs3).findSome? matchCapture

/-- The tail of the pattern `(?:<!--.*?-->\s*\n+)?([^\n#]+)`: the optional
comment group is tried present-first, as regex does. -/
def matchTail (cs : List Char) : Option (List Char) :=
  match matchCommentThenCapture cs with
  | some v => some v
  | none => matchCapture cs

/-- Try the whole pattern anchored at this position, returning the capture. -/
def matchPatternAt (field : List Char) (cs : List Char) : Option (List Char) :=
  match matchLitCI ['#', '#'] cs with
  | none => none
  | some cs1 =>
    (greedyStar isPySpace cs1).findSome? fun cs2 =>
      match matchLitCI field cs2 with
      | none => none
      | some cs3 =>
        (spaceStarNewlinePlus cs3).findSome? matchTail

/-- re.search: try positions left to right, returning the first capture. -/
def searchCapture (field : List Char) : List Char → Option (List Char)
  | [] => matchPatternAt field []
  | c :: cs =>
    match matchPatternAt field (c :: cs) with
    | some v => some v
    | none => searchCapture field cs

/-- Python str.strip(): remove leading and trailing whitespace. -/
def pyStrip (s : List Char) : List Char :=
  ((s.dropWhile isPySpace).reverse.dropWhile isPySpace).reverse

/-- Python str.startswith for a single-character pattern, over char lists. -/
def headIsChar (c : Char) : List Char → Bool
  | [] => false
  | d :: _ => d == c

/-- Python str.endswith for a single-character pattern, over char lists. -/
def lastIsChar (c : Char) (l : List Char) : Bool :=
  headIsChar c l.reverse

/-- parse_status_field from state.py: regex search for the field heading,
strip the captured value, and treat a brace-wrapped template placeholder
(value.startswith("\x7b") and value.endswith("\x7d")) as absent. -/
def parse_status_field (content field : String) : Option String :=
  match searchCapture field.data content.data with
  | none => none
  | some v =>
    if headIsChar '\x7b' (pyStrip v) && lastIsChar '\x7d' (pyStrip v) then none
    else some (String.mk (pyStrip v))

example : parse_status_field "## Status\nAVAILABLE\n" "Status" = some "AVAILABLE" := by decide
example : parse_status_field "## Status\n\x7bstatus\x7d\n" "Status" = none := by decide
example : parse_status_field "no heading" "Status" = none := by decide
example : parse_status_field "## STATUS\nok\n" "Status" = some "ok" := by decide
example : parse_status_field "## Status\n<!-- pick one -->\nWORKING\n" "Status" = some "WORKING" := by decide

/-! ## state.py: programmer / task / manager state inference -/

/-- Python substring prefix test (`isPrefixCh pat s` iff pat begins s). -/
def isPrefixCh : List Char → List Char → Bool
  | [], _ => true
  | _ :: _, [] => false
  | p :: ps, c :: cs => p == c && isPrefixCh ps cs

/-- Python `pat in s` substring containment over char lists. -/
def containsSub (pat : List Char) : List Char → Bool
  | [] => isPrefixCh pat []
  | c :: cs => isPrefixCh pat (c :: cs) || containsSub pat cs

/-- Mapping from a parsed (present) Status value to a programmer state, as in
get_programmer_state / get_all_team_members: lowercase the value, then test
substring containment of "working", "assigned", "available" in that order,
defaulting to AVAILABLE. -/
def statusToMemberState (status : String) : ProgrammerState :=
  let l := status.data.map Char.toLower
  if containsSub "working".data l then ProgrammerState.WORKING
  else if containsSub "assigned".data l then ProgrammerState.ASSIGNED
  else if containsSub "available".data l then ProgrammerState.AVAILABLE
  else ProgrammerState.AVAILABLE

/-- get_programmer_state from state.py over the team-file content:
`none` models a missing team file or an OSError while reading it (both
return NOT_REGISTERED in the source); a present document is parsed for its
Status field, an absent field giving NOT_REGISTERED. -/
def get_programmer_state (doc : Option String) : ProgrammerState :=
  match doc with
  | none => ProgrammerState.NOT_REGISTERED
  | some content =>
    match parse_status_field content "Status" with
    | none => ProgrammerState.NOT_REGISTERED
    | some status => statusToMemberState status

/-- The per-member state computation inside get_all_team_members from
state.py (identical chain of substring tests on the parsed Status field). -/
def teamMemberStateOf (content : String) : ProgrammerState :=
  match parse_status_field content "Status" with
  | none => ProgrammerState.NOT_REGISTERED
  | some status => statusToMemberState status

/-- get_task_state from state.py over the task-file content: `none` models a
missing file or OSError (PENDING in the source); a present document is
parsed for Status, testing "completed" then "in_progress" / "in progress". -/
def get_task_state (doc : Option String) : TaskState :=
  match doc with
  | none => TaskState.PENDING
  | some content =>
    match parse_status_field content "Status" with
    | none => TaskState.PENDING
    | some status =>
      let l := status.data.map Char.toLower
      if containsSub "completed".data l then TaskState.COMPLETED
      else if containsSub "in_progress".data l || containsSub "in progress".data l then
        TaskState.IN_PROGRESS
      else TaskState.PENDING

/-- get_manager_state from state.py, as a pure function of the parsed task
set (get_all_tasks output) and team-member set (get_all_team_members
output): no tasks gives INITIAL; all tasks COMPLETED gives COMPLETED; then
pending tasks and available programmers give ASSIGNING; both remaining
branches give MONITORING. -/
def get_manager_state (tasks : List (String × TaskState))
    (members : List (String × ProgrammerState)) : ManagerState :=
  if tasks.isEmpty then ManagerState.INITIAL
  else if tasks.all (fun t => t.2 == TaskState.COMPLETED) then ManagerState.COMPLETED
  else
    let pending := tasks.filter (fun t => t.2 == TaskState.PENDING)
    let available := members.filter (fun m => m.2 == ProgrammerState.AVAILABLE)
    if !pending.isEmpty && !available.isEmpty then ManagerState.ASSIGNING
    else if !pending.isEmpty then ManagerState.MONITORING
    else ManagerState.MONITORING

/-! ## sanitize_filename and the session / status paths -/

/-- Lowercase ASCII letter or digit, the class [a-z0-9] used by the
sanitizers. -/
def isLowerAlnum (c : Char) : Bool :=
  (97 ≤ c.toNat && c.toNat ≤ 122) || (48 ≤ c.toNat && c.toNat ≤ 57)

/-- re.sub(r"[^a-z0-9]+", "-", s): replace each maximal run of characters
outside [a-z0-9] with a single hyphen.  The flag records whether the
previous character was already folded into a hyphen run. -/
def collapseRuns (inRun : Bool) : List Char → List Char
  | [] => []
  | c :: cs =>
    if isLowerAlnum c then c :: collapseRuns false cs
    else if inRun then collapseRuns true cs
    else '-' :: collapseRuns true cs

/-- Python str.strip("-"): remove leading and trailing hyphens. -/
def stripHyphens (l : List Char) : List Char :=
  ((l.dropWhile (fun c => c == '-')).reverse.dropWhile (fun c => c == '-')).reverse

/-- sanitize_filename from state.py; the identical helper appears as
sanitize_name in status.py and SessionManager._sanitize_name in
sessions.py: lowercase, collapse non-[a-z0-9] runs to "-", strip "-". -/
def sanitize_name (name : String) : String :=
  String.mk (stripHyphens (collapseRuns false (name.data.map Char.toLower)))

/-- SessionManager._get_session_path from sessions.py: the filename
f"\x7bagent_type\x7d-\x7bsanitized_name\x7d-\x7bself.prefix\x7d.json"
inside the fixed sessions directory. -/
def session_filename (agent_type agent_name pfx : String) : String :=
  agent_type ++ "-" ++ sanitize_name agent_name ++ "-" ++ pfx ++ ".json"

/-- The filename part of get_status_path from status.py: the agent name is
included only when it is truthy and differs from both the agent type and
"default". -/
def status_filename (agent_type : String) (agent_name : Option String) : String :=
  match agent_name with
  | none => agent_type ++ ".status"
  | some n =>
    if n ≠ "" ∧ n ≠ agent_type ∧ n ≠ "default" then
      agent_type ++ "-" ++ sanitize_name n ++ ".status"
    else agent_type ++ ".status"

/-- get_status_path from status.py as the pair (directory component under
the fixed status root, filename). -/
def get_status_path (pfx agent_type : String) (agent_name : Option String) :
    String × String :=
  (pfx, status_filename agent_type agent_name)

example : sanitize_name "John Doe" = "john-doe" := by decide
example : sanitize_name "john-doe" = "john-doe" := by decide
example : get_programmer_state (some "## Status\nWORKING on it\n") = ProgrammerState.WORKING := by decide
example : get_programmer_state (some "hello\n") = ProgrammerState.NOT_REGISTERED := by decide
example : get_manager_state [] [] = ManagerState.INITIAL := by decide
example : get_manager_state [("t", TaskState.PENDING)] [("m", ProgrammerState.AVAILABLE)] = ManagerState.ASSIGNING := by decide
example : get_manager_state [("t", TaskState.PENDING)] [("m", ProgrammerState.WORKING)] = ManagerState.MONITORING := by decide
example : get_manager_state [("t", TaskState.IN_PROGRESS)] [] = ManagerState.MONITORING := by decide
example : get_manager_state [("a", TaskState.COMPLETED), ("b", TaskState.COMPLETED)] [("m", ProgrammerState.WORKING)] = ManagerState.COMPLETED := by decide

/-! ## status.py: the JSON status record and update_status -/

/-- JSON values appearing in status records: strings, integers, null. -/
inductive JVal
  | str (s : String)
  | int (n : Int)
  | null
deriving DecidableEq, Repr

/-- A status record, as a Python dict in insertion order. -/
abbrev StatusRecord := List (String × JVal)

/-- Dict lookup d[k] / d.get(k): the value at the first (in a dict, only)
occurrence of the key. -/
def getField : StatusRecord → String → Option JVal
  | [], _ => none
  | p :: ps, k => if p.1 == k then some p.2 else getField ps k

/-- Dict membership `k in d`. -/
def hasField (r : StatusRecord) (k : String) : Bool :=
  (getField r k).isSome

/-- Dict assignment d[k] = v with CPython semantics: an existing key keeps
its position and gets the new value, a new key is appended at the end. -/
def setField : StatusRecord → String → JVal → StatusRecord
  | [], k, v => [(k, v)]
  | p :: ps, k, v => if p.1 == k then (k, v) :: ps else p :: setField ps k v

/-- An `if arg is not None: data[key] = arg` line from update_status. -/
def setOptStr (d : StatusRecord) (key : String) (o : Option String) : StatusRecord :=
  match o with
  | some t => setField d key (JVal.str t)
  | none => d

/-- An `if arg is not None: data[key] = arg; elif key not in data:
data[key] = None` pair of lines from update_status. -/
def setOptIntOrNull (d : StatusRecord) (key : String) (o : Option Int) : StatusRecord :=
  match o with
  | some i => setField d key (JVal.int i)
  | none => if hasField d key then d else setField d key JVal.null

/-- update_status from status.py as a pure function of the existing record
(the parsed current file content, empty when missing or corrupt), the call
arguments, and the ambient timestamp and pid.  It mirrors the source
statement by statement: the dict literal merging existing with status,
details, last_update, pid and **extra (in that order, so extras land
last); then the conditional optional fields; then started_at only if still
absent. -/
def update_status (existing : StatusRecord) (status details : String)
    (agent_type name proj : Option String)
    (current_issue current_pr : Option Int)
    (extra : StatusRecord) (now : String) (pid : Int) : StatusRecord :=
  let data := setField (setField (setField (setField existing
    "status" (JVal.str status))
    "details" (JVal.str details))
    "last_update" (JVal.str now))
    "pid" (JVal.int pid)
  let data := extra.foldl (fun d p => setField d p.1 p.2) data
  let data := setOptStr data "agent_type" agent_type
  let data := setOptStr data "name" name
  let data := setOptStr data "project" proj
  let data := setOptIntOrNull data "current_issue" current_issue
  let data := setOptIntOrNull data "current_pr" current_pr
  if hasField data "started_at" then data
  else setField data "started_at" (JVal.str now)

/-! ## status.py / sessions.py: reading persisted records -/

/-- Outcome of the file-system access underlying a read: the file does not
exist, an OSError occurs while reading it, or text content is obtained. -/
inductive FileRead
  | missing
  | ioError
  | ok (content : String)
deriving DecidableEq

/-- read_status from status.py, with JSON decoding abstracted as `jp`
(returning none on json.JSONDecodeError): a missing file gives None, and
both OSError and decode errors are caught, giving None. -/
def read_status (jp : String → Option StatusRecord) : FileRead → Option StatusRecord
  | FileRead.missing => none
  | FileRead.ioError => none
  | FileRead.ok content =>
    match jp content with
    | none => none
    | some data => some data

/-- is_agent_exited from status.py.  The result is `none` when the Python
code would raise (a non-string status field has no .startswith); otherwise
`some` of the boolean.  A falsy record (None or the empty dict) gives
False, and data.get("status", "") supplies "" when the field is absent. -/
def is_agent_exited (jp : String → Option StatusRecord) (f : FileRead) : Option Bool :=
  match read_status jp f with
  | none => some false
  | some data =>
    if data.isEmpty then some false
    else
      match getField data "status" with
      | none => some (isPrefixCh "exited:".data "".data)
      | some (JVal.str s) => some (isPrefixCh "exited:".data s.data)
      | some _ => none

/-- is_agent_stale from status.py, with ISO-8601 parsing abstracted as `pt`
(absolute seconds; none models ValueError, which the source catches).  The
result is `none` when the Python code would raise (a non-string
last_update reaches datetime.fromisoformat, whose TypeError is not
caught); a falsy record gives True; a missing key (KeyError) or parse
failure gives True; otherwise the age is compared with the threshold. -/
def is_agent_stale (jp : String → Option StatusRecord) (pt : String → Option Int)
    (now threshold : Int) (f : FileRead) : Option Bool :=
  match read_status jp f with
  | none => some true
  | some data =>
    if data.isEmpty then some true
    else
      match getField data "last_update" with
      | none => some true
      | some (JVal.str s) =>
        match pt s with
        | none => some true
        | some t => some (decide (now - t > threshold))
      | some _ => none

/-- A parsed session record, as in sessions.py SessionInfo. -/
structure SessionInfo where
  session_id : String
  agent_name : String
  agent_type : String
  pfx : String
  last_run : String
  num_turns : Int
  total_cost_usd : Option Int
deriving DecidableEq

/-- SessionManager.get_session from sessions.py with JSON decoding and the
SessionInfo(**data) construction abstracted as `jp` (none models
json.JSONDecodeError, TypeError or KeyError, all caught).  The Bool
records whether the corrupted-file diagnostic was printed.  An OSError
raised by open/read on an existing file is NOT caught by the source, so
that outcome is `Except.error ()` (the exception propagates); the other
outcomes return normally. -/
def get_session (jp : String → Option SessionInfo) :
    FileRead → Except Unit (Option SessionInfo × Bool)
  | FileRead.missing => Except.ok (none, false)
  | FileRead.ioError => Except.error ()
  | FileRead.ok content =>
    match jp content with
    | none => Except.ok (none, true)
    | some info => Except.ok (some info, false)

/-! ## loop.py: two-stage interrupt handling and the agent loop -/

/-- The shared dict self._shutdown_state from loop.py. -/
structure ShutdownState where
  shutdownRequested : Bool
  queryRunning : Bool
deriving DecidableEq, Repr

/-- What a SIGINT delivery does, per the handler in
Agent._setup_signal_handlers. -/
inductive SignalOutcome
  | deferred
  | raiseGraceful
  | raiseImmediate
deriving DecidableEq, Repr

/-- The signal handler from Agent._setup_signal_handlers: a repeated signal
raises ImmediateExit; a first signal sets shutdown_requested and, when a
query is running, merely defers, otherwise raises GracefulExit. -/
def onSignal (s : ShutdownState) : SignalOutcome × ShutdownState :=
  if s.shutdownRequested then (SignalOutcome.raiseImmediate, s)
  else
    let s2 := { s with shutdownRequested := true }
    if s.queryRunning then (SignalOutcome.deferred, s2)
    else (SignalOutcome.raiseGraceful, s2)

/-- The exception dispatch at the bottom of Agent.run: GracefulExit runs
on_shutdown(graceful=True) and returns (exit code 0); ImmediateExit runs
on_shutdown(graceful=False) and calls sys.exit(1). -/
def runExceptionExitCode (graceful : Bool) : Nat :=
  if graceful then 0 else 1

/-- Terminal status-file updates written by the lifecycle hooks of loop.py. -/
inductive TermStatus
  | success
  | terminatedShutdown
  | terminatedMax
  | errored
deriving DecidableEq, Repr

/-- The status strings the hooks write: on_complete writes exited:success,
on_shutdown and on_max_iterations both write exited:terminated, on_error
writes exited:error. -/
def statusString : TermStatus → String
  | TermStatus.success => "exited:success"
  | TermStatus.terminatedShutdown => "exited:terminated"
  | TermStatus.terminatedMax => "exited:terminated"
  | TermStatus.errored => "exited:error"

/-- The external environment of one run of the agent loop, indexed by the
iteration number (starting at 1): whether the turn result satisfies
is_complete, whether the classifier asks for user input, and whether the
shutdown flag is observed set at the pre-turn / post-turn checks. -/
structure LoopEnv where
  complete : Nat → Bool
  needsInput : Nat → Bool
  signalBefore : Nat → Bool
  signalAfter : Nat → Bool

/-- The observable outcome of Agent.run: how many turns were processed, how
many blocking user-input reads happened, and the terminal status updates
written, in order. -/
structure LoopResult where
  turns : Nat
  inputsRead : Nat
  statuses : List TermStatus
deriving DecidableEq, Repr

/-- The while-loop of Agent.run from loop.py.  `iter` is self._iteration;
each pass increments it, checks the shutdown flag (break), processes one
turn, saves the session, checks completion (early return, skipping the
post-loop check), re-checks the shutdown flag (break), then either blocks
for user input or sends the continuation prompt; after the loop,
on_max_iterations fires when the iteration count reached the maximum.
Break paths fall through to that same post-loop check. -/
def loopGo (env : LoopEnv) (maxIter iter turns inputs : Nat) : LoopResult :=
  if h : iter < maxIter then
    let i := iter + 1
    if env.signalBefore i then
      ⟨turns, inputs, [TermStatus.terminatedShutdown] ++
        (if maxIter ≤ i then [TermStatus.terminatedMax] else [])⟩
    else
      let turns2 := turns + 1
      if env.complete i then ⟨turns2, inputs, [TermStatus.success]⟩
      else if env.signalAfter i then
        ⟨turns2, inputs, [TermStatus.terminatedShutdown] ++
          (if maxIter ≤ i then [TermStatus.terminatedMax] else [])⟩
      else if env.needsInput i then loopGo env maxIter i turns2 (inputs + 1)
      else loopGo env maxIter i turns2 inputs
  else ⟨turns, inputs, if maxIter ≤ iter then [TermStatus.terminatedMax] else []⟩
termination_by maxIter - iter
decreasing_by
  omega
  omega

/-- Agent.run's loop started with self._iteration = 0. -/
def runLoop (env : LoopEnv) (maxIter : Nat) : LoopResult :=
  loopGo env maxIter 0 0 0

/-! ## Theorems: manager state (C1, C2) -/

/-- Characterization of get_manager_state by logical conditions on the task
and member sets. -/
theorem manager_state_characterization (tasks : List (String × TaskState))
    (members : List (String × ProgrammerState)) :
    get_manager_state tasks members =
      if tasks = [] then ManagerState.INITIAL
      else if ∀ t ∈ tasks, t.2 = TaskState.COMPLETED then ManagerState.COMPLETED
      else if (∃ t ∈ tasks, t.2 = TaskState.PENDING) ∧
          (∃ m ∈ members, m.2 = ProgrammerState.AVAILABLE) then ManagerState.ASSIGNING
      else ManagerState.MONITORING := by
  unfold get_manager_state
  simp only [List.isEmpty_eq_true, List.all_eq_true, beq_iff_eq, Bool.and_eq_true,
    Bool.not_eq_true', List.isEmpty_eq_false, ne_eq, List.filter_eq_nil_iff]
  split_ifs <;> first
    | rfl
    | (exfalso; push_neg at *; aesop)

/-- C1: the manager-state aggregate returns INITIAL when no task documents
exist; COMPLETED when the task set is non-empty and every task is
COMPLETED; ASSIGNING when at least one task is PENDING and at least one
member is AVAILABLE; and MONITORING in every remaining case. -/
theorem C1_manager_state_aggregate (tasks : List (String × TaskState))
    (members : List (String × ProgrammerState)) :
    (tasks = [] → get_manager_state tasks members = ManagerState.INITIAL) ∧
    (tasks ≠ [] → (∀ t ∈ tasks, t.2 = TaskState.COMPLETED) →
      get_manager_state tasks members = ManagerState.COMPLETED) ∧
    ((∃ t ∈ tasks, t.2 = TaskState.PENDING) →
      (∃ m ∈ members, m.2 = ProgrammerState.AVAILABLE) →
      get_manager_state tasks members = ManagerState.ASSIGNING) ∧
    (tasks ≠ [] → ¬ (∀ t ∈ tasks, t.2 = TaskState.COMPLETED) →
      ¬ ((∃ t ∈ tasks, t.2 = TaskState.PENDING) ∧
         (∃ m ∈ members, m.2 = ProgrammerState.AVAILABLE)) →
      get_manager_state tasks members = ManagerState.MONITORING) := by
  rw [manager_state_characterization]
  refine ⟨fun h => by simp [h], fun h1 h2 => ?_, fun h3a h3b => ?_, fun h1 h2 h3 => ?_⟩
  · rw [if_neg h1, if_pos h2]
  · have h1 : tasks ≠ [] := by
      rcases h3a with ⟨t, ht, _⟩
      exact fun h => by simp [h] at ht
    have h2 : ¬ ∀ t ∈ tasks, t.2 = TaskState.COMPLETED := by
      rcases h3a with ⟨t, ht, hp⟩
      intro hall
      have := hall t ht
      rw [hp] at this
      exact absurd this (by decide)
    rw [if_neg h1, if_neg h2, if_pos ⟨h3a, h3b⟩]
  · rw [if_neg h1, if_neg h2, if_neg h3]

/-- C1 witness: concrete instances exercising each hypothesis of the
aggregate characterization. -/
theorem C1_manager_state_aggregate_witness :
    get_manager_state [] [] = ManagerState.INITIAL ∧
    get_manager_state [("a", TaskState.COMPLETED)] [] = ManagerState.COMPLETED ∧
    get_manager_state [("a", TaskState.PENDING)] [("m", ProgrammerState.AVAILABLE)] =
      ManagerState.ASSIGNING ∧
    get_manager_state [("a", TaskState.IN_PROGRESS)] [] = ManagerState.MONITORING := by
  refine ⟨(C1_manager_state_aggregate [] []).1 rfl,
    (C1_manager_state_aggregate [("a", TaskState.COMPLETED)] []).2.1 (by decide) (by decide),
    (C1_manager_state_aggregate [("a", TaskState.PENDING)]
      [("m", ProgrammerState.AVAILABLE)]).2.2.1 (by decide) (by decide),
    (C1_manager_state_aggregate [("a", TaskState.IN_PROGRESS)] []).2.2.2 (by decide)
      (by decide) (by decide)⟩

/-- C2 counterexample: on the empty task set every task is vacuously
COMPLETED, yet the aggregate returns INITIAL, so the biconditional claimed
over all task sets (including the empty one) fails. -/
theorem C2_counterexample :
    ¬ (get_manager_state [] [] = ManagerState.COMPLETED ↔
        ∀ t ∈ ([] : List (String × TaskState)), t.2 = TaskState.COMPLETED) := by
  decide

/-- C2 amended: the aggregate returns COMPLETED iff the task set is
non-empty and every known task is COMPLETED, irrespective of the
team-member states. -/
theorem C2_completed_iff (tasks : List (String × TaskState))
    (members : List (String × ProgrammerState)) :
    get_manager_state tasks members = ManagerState.COMPLETED ↔
      tasks ≠ [] ∧ ∀ t ∈ tasks, t.2 = TaskState.COMPLETED := by
  rw [manager_state_characterization]
  rcases eq_or_ne tasks [] with h1 | h1
  · subst h1; simp
  · rw [if_neg h1]
    by_cases h2 : ∀ t ∈ tasks, t.2 = TaskState.COMPLETED
    · rw [if_pos h2]
      exact ⟨fun _ => ⟨h1, h2⟩, fun _ => rfl⟩
    · rw [if_neg h2]
      constructor
      · intro hEq
        exfalso
        split_ifs at hEq
      · intro hc
        exact absurd hc.2 h2

/-- C2 witness: the amended biconditional applied to a concrete non-empty
all-completed task set with a WORKING member. -/
theorem C2_completed_iff_witness :
    get_manager_state [("a", TaskState.COMPLETED), ("b", TaskState.COMPLETED)]
      [("m", ProgrammerState.WORKING)] = ManagerState.COMPLETED :=
  (C2_completed_iff [("a", TaskState.COMPLETED), ("b", TaskState.COMPLETED)]
    [("m", ProgrammerState.WORKING)]).mpr ⟨by decide, by decide⟩

/-! ## Theorems: interrupt handling and loop termination (C5, C8) -/

/-- C5: two-stage interrupt handling.  A first signal with no turn in
flight raises the graceful stop at once; a first signal during a turn only
sets the shutdown_requested flag; a second signal at any time raises the
immediate stop, whose exit path terminates with nonzero status; and a loop
that observes the deferred flag at the post-turn boundary finishes the
in-flight turn (turn count increases) and stops with the graceful
exited:terminated status. -/
theorem C5_two_stage_interrupt :
    (∀ s : ShutdownState, s.shutdownRequested = false → s.queryRunning = false →
      onSignal s = (SignalOutcome.raiseGraceful, ⟨true, false⟩)) ∧
    (∀ s : ShutdownState, s.shutdownRequested = false → s.queryRunning = true →
      onSignal s = (SignalOutcome.deferred, ⟨true, true⟩)) ∧
    (∀ s : ShutdownState, s.shutdownRequested = true →
      (onSignal s).1 = SignalOutcome.raiseImmediate) ∧
    runExceptionExitCode false = 1 ∧ runExceptionExitCode false ≠ 0 ∧
    statusString TermStatus.terminatedShutdown = "exited:terminated" ∧
    (∀ (env : LoopEnv) (maxIter iter turns inputs : Nat),
      iter < maxIter →
      env.signalBefore (iter + 1) = false →
      env.complete (iter + 1) = false →
      env.signalAfter (iter + 1) = true →
      loopGo env maxIter iter turns inputs =
        ⟨turns + 1, inputs, [TermStatus.terminatedShutdown] ++
          (if maxIter ≤ iter + 1 then [TermStatus.terminatedMax] else [])⟩) := by
  refine ⟨?_, ?_, ?_, rfl, by decide, rfl, ?_⟩
  · intro s h1 h2
    cases s
    simp_all [onSignal]
  · intro s h1 h2
    cases s
    simp_all [onSignal]
  · intro s h1
    cases s
    simp_all [onSignal]
  · intro env maxIter iter turns inputs hlt hsb hc hsa
    rw [loopGo]
    simp [hlt, hsb, hc, hsa]

/-- C5 witness: the interrupt theorem applied at concrete states and a
concrete two-iteration environment whose first turn sees a deferred
signal. -/
theorem C5_two_stage_interrupt_witness :
    onSignal ⟨false, false⟩ = (SignalOutcome.raiseGraceful, ⟨true, false⟩) ∧
    onSignal ⟨false, true⟩ = (SignalOutcome.deferred, ⟨true, true⟩) ∧
    (onSignal ⟨true, true⟩).1 = SignalOutcome.raiseImmediate ∧
    loopGo ⟨fun _ => false, fun _ => false, fun _ => false, fun _ => true⟩ 2 0 0 0 =
      ⟨1, 0, [TermStatus.terminatedShutdown]⟩ := by
  refine ⟨C5_two_stage_interrupt.1 ⟨false, false⟩ rfl rfl,
    C5_two_stage_interrupt.2.1 ⟨false, true⟩ rfl rfl,
    C5_two_stage_interrupt.2.2.1 ⟨true, true⟩ rfl, ?_⟩
  have h := C5_two_stage_interrupt.2.2.2.2.2.2
    ⟨fun _ => false, fun _ => false, fun _ => false, fun _ => true⟩ 2 0 0 0
    (by decide) rfl rfl rfl
  simpa using h

/-- C8: with max_iterations = 1, a completion predicate that always returns
false, no interrupts and a classifier that never requests user input, the
loop performs exactly one turn, reads no user input, and the only terminal
status written is the max-iterations exited:terminated record. -/
theorem C8_max_iterations_one_turn (env : LoopEnv)
    (hc : ∀ i, env.complete i = false)
    (hni : ∀ i, env.needsInput i = false)
    (hsb : ∀ i, env.signalBefore i = false)
    (hsa : ∀ i, env.signalAfter i = false) :
    runLoop env 1 = ⟨1, 0, [TermStatus.terminatedMax]⟩ ∧
    statusString TermStatus.terminatedMax = "exited:terminated" := by
  constructor
  · unfold runLoop
    rw [loopGo, dif_pos (by omega)]
    simp only [hsb, hc, hsa, hni, Bool.false_eq_true, if_false]
    norm_num
    rw [loopGo, dif_neg (by omega), if_pos (by omega)]
  · rfl

/-- C8 witness: the theorem applied to the environment in which every
per-iteration observation is false. -/
theorem C8_max_iterations_one_turn_witness :
    runLoop ⟨fun _ => false, fun _ => false, fun _ => false, fun _ => false⟩ 1 =
      ⟨1, 0, [TermStatus.terminatedMax]⟩ :=
  (C8_max_iterations_one_turn ⟨fun _ => false, fun _ => false, fun _ => false, fun _ => false⟩
    (fun _ => rfl) (fun _ => rfl) (fun _ => rfl) (fun _ => rfl)).1

/-! ## Theorems: team-member state inference (C3) -/

/-- isPrefixCh decides the prefix relation. -/
theorem isPrefixCh_iff (pat s : List Char) :
    isPrefixCh pat s = true ↔ ∃ r, s = pat ++ r := by
  induction pat generalizing s with
  | nil => simp [isPrefixCh]
  | cons p ps ih =>
    cases s with
    | nil => simp [isPrefixCh]
    | cons c cs =>
      simp only [isPrefixCh, Bool.and_eq_true, beq_iff_eq, ih, List.cons_append,
        List.cons.injEq]
      constructor
      · rintro ⟨rfl, r, rfl⟩
        exact ⟨r, rfl, rfl⟩
      · rintro ⟨r, rfl, rfl⟩
        exact ⟨rfl, r, rfl⟩

/-- containsSub decides substring containment. -/
theorem containsSub_iff (pat s : List Char) :
    containsSub pat s = true ↔ ∃ l r, s = l ++ pat ++ r := by
  induction s with
  | nil =>
    simp only [containsSub, isPrefixCh_iff]
    constructor
    · rintro ⟨r, hr⟩
      exact ⟨[], r, by simpa using hr⟩
    · rintro ⟨l, r, hlr⟩
      have h1 : l ++ pat = [] ∧ r = [] := List.append_eq_nil.mp hlr.symm
      have h2 : l = [] ∧ pat = [] := List.append_eq_nil.mp h1.1
      exact ⟨[], by simp [h2.2]⟩
  | cons c cs ih =>
    simp only [containsSub, Bool.or_eq_true, isPrefixCh_iff, ih]
    constructor
    · rintro (⟨r, hr⟩ | ⟨l, r, hr⟩)
      · exact ⟨[], r, by simpa using hr⟩
      · exact ⟨c :: l, r, by simp [hr]⟩
    · rintro ⟨l, r, hr⟩
      cases l with
      | nil => exact Or.inl ⟨r, by simpa using hr⟩
      | cons x xs =>
        rcases List.cons.injEq .. ▸ hr with ⟨hcx, hcs⟩
        exact Or.inr ⟨xs, r, by simpa using hcs⟩

/-- C3 counterexample: a present team-member document with no Status field
is mapped to NOT_REGISTERED by the code, not to AVAILABLE as the claim
states. -/
theorem C3_counterexample :
    get_programmer_state (some "hello\n") = ProgrammerState.NOT_REGISTERED ∧
    parse_status_field "hello\n" "Status" = none ∧
    ProgrammerState.NOT_REGISTERED ≠ ProgrammerState.AVAILABLE := by
  refine ⟨by decide, by decide, by decide⟩

/-- C3 amended: no document gives NOT_REGISTERED; a present document whose
Status field is absent also gives NOT_REGISTERED; a present Status value
containing "working" (case-insensitively) gives WORKING, otherwise one
containing "assigned" gives ASSIGNED, and any other present value
(containing "available" or unrecognized) gives AVAILABLE.  The per-member
computation of get_all_team_members agrees with get_programmer_state on
every present document. -/
theorem C3_member_state (doc : Option String) :
    (doc = none → get_programmer_state doc = ProgrammerState.NOT_REGISTERED) ∧
    (∀ c, doc = some c → parse_status_field c "Status" = none →
      get_programmer_state doc = ProgrammerState.NOT_REGISTERED) ∧
    (∀ c s, doc = some c → parse_status_field c "Status" = some s →
      (((∃ l r, s.data.map Char.toLower = l ++ "working".data ++ r) →
        get_programmer_state doc = ProgrammerState.WORKING) ∧
      (¬ (∃ l r, s.data.map Char.toLower = l ++ "working".data ++ r) →
        (∃ l r, s.data.map Char.toLower = l ++ "assigned".data ++ r) →
        get_programmer_state doc = ProgrammerState.ASSIGNED) ∧
      (¬ (∃ l r, s.data.map Char.toLower = l ++ "working".data ++ r) →
        ¬ (∃ l r, s.data.map Char.toLower = l ++ "assigned".data ++ r) →
        get_programmer_state doc = ProgrammerState.AVAILABLE))) ∧
    (∀ c, teamMemberStateOf c = get_programmer_state (some c)) := by
  have hsome : ∀ c : String, get_programmer_state (some c) =
      match parse_status_field c "Status" with
      | none => ProgrammerState.NOT_REGISTERED
      | some status => statusToMemberState status := fun c => rfl
  have hchar : ∀ s : String, statusToMemberState s =
      if containsSub "working".data (s.data.map Char.toLower) = true then
        ProgrammerState.WORKING
      else if containsSub "assigned".data (s.data.map Char.toLower) = true then
        ProgrammerState.ASSIGNED
      else ProgrammerState.AVAILABLE := by
    intro s
    simp only [statusToMemberState]
    split_ifs <;> rfl
  refine ⟨fun h => by rw [h]; rfl, fun c hc hp => ?_, fun c s hc hp => ?_, fun c => rfl⟩
  · rw [hc, hsome, hp]
  · have hred : get_programmer_state doc = statusToMemberState s := by
      rw [hc, hsome, hp]
    have hw2 : ¬ (∃ l r, s.data.map Char.toLower = l ++ "working".data ++ r) →
        containsSub "working".data (s.data.map Char.toLower) = false := by
      intro hw
      rw [Bool.eq_false_iff]
      intro hx
      exact hw ((containsSub_iff _ _).mp hx)
    have ha2 : ¬ (∃ l r, s.data.map Char.toLower = l ++ "assigned".data ++ r) →
        containsSub "assigned".data (s.data.map Char.toLower) = false := by
      intro ha
      rw [Bool.eq_false_iff]
      intro hx
      exact ha ((containsSub_iff _ _).mp hx)
    refine ⟨fun hw => ?_, fun hw ha => ?_, fun hw ha => ?_⟩
    · rw [hred, hchar, if_pos ((containsSub_iff _ _).mpr hw)]
    · rw [hred, hchar, if_neg (by simp [hw2 hw]), if_pos ((containsSub_iff _ _).mpr ha)]
    · rw [hred, hchar, if_neg (by simp [hw2 hw]), if_neg (by simp [ha2 ha])]

/-- C3 witness: the amended theorem applied to a missing document, a
document without a Status field, and documents whose Status is WORKING,
ASSIGNED, and an unrecognized value. -/
theorem C3_member_state_witness :
    get_programmer_state none = ProgrammerState.NOT_REGISTERED ∧
    get_programmer_state (some "hi") = ProgrammerState.NOT_REGISTERED ∧
    get_programmer_state (some "## Status\nWORKING\n") = ProgrammerState.WORKING ∧
    get_programmer_state (some "## Status\nAssigned\n") = ProgrammerState.ASSIGNED ∧
    get_programmer_state (some "## Status\nodd\n") = ProgrammerState.AVAILABLE := by
  refine ⟨(C3_member_state none).1 rfl,
    (C3_member_state (some "hi")).2.1 "hi" rfl (by decide),
    ((C3_member_state (some "## Status\nWORKING\n")).2.2.1 "## Status\nWORKING\n"
      "WORKING" rfl (by decide)).1 ⟨[], [], by decide⟩,
    ((C3_member_state (some "## Status\nAssigned\n")).2.2.1 "## Status\nAssigned\n"
      "Assigned" rfl (by decide)).2.1
      (fun hx => absurd ((containsSub_iff _ _).mpr hx) (by decide)) ⟨[], [], by decide⟩,
    ((C3_member_state (some "## Status\nodd\n")).2.2.1 "## Status\nodd\n"
      "odd" rfl (by decide)).2.2
      (fun hx => absurd ((containsSub_iff _ _).mpr hx) (by decide))
      (fun hx => absurd ((containsSub_iff _ _).mpr hx) (by decide))⟩

/-! ## Theorems: field lookup (C4) -/

/-- Split a character list into lines at newline characters. -/
def splitLines : List Char → List (List Char)
  | [] => [[]]
  | c :: cs =>
    if c = '\n' then [] :: splitLines cs
    else
      match splitLines cs with
      | [] => [[c]]
      | l :: ls => (c :: l) :: ls

/-- Stated from the claim wording (not the source): a line is a heading for
the field when, after trimming, it starts with the heading marker and the
rest equals the field name case-insensitively. -/
def isHeadingFor (field : String) (line : List Char) : Bool :=
  let t := pyStrip line
  isPrefixCh ['#', '#'] t &&
    ((pyStrip (t.drop 2)).map Char.toLower == field.data.map Char.toLower)

/-- Stated from the claim wording (not the source): a comment-style
annotation line. -/
def isCommentLine (line : List Char) : Bool :=
  let t := pyStrip line
  isPrefixCh ['<', '!', '-', '-'] t && isPrefixCh ['>', '-', '-'] t.reverse

/-- Stated from the claim wording (not the source): the first non-empty
line, skipping any number of comment-style annotations; a brace-wrapped
placeholder value yields absent. -/
def valueAfter : List (List Char) → Option String
  | [] => none
  | l :: ls =>
    let t := pyStrip l
    if t.isEmpty then valueAfter ls
    else if isCommentLine l then valueAfter ls
    else if headIsChar '\x7b' t && lastIsChar '\x7d' t then none
    else some (String.mk t)

/-- Stated from the claim wording (not the source): the lines after the
first heading matching the field, if any. -/
def afterFirstHeading (field : String) : List (List Char) → Option (List (List Char))
  | [] => none
  | l :: ls => if isHeadingFor field l then some ls else afterFirstHeading field ls

/-- Stated from the claim wording (not the source), for comparison with
parse_status_field: find the first heading matching the field name
case-insensitively and return the first non-empty line after it, skipping
any intervening comment-style annotations, with brace-wrapped placeholders
treated as absent. -/
def lookupFieldSpec (content field : String) : Option String :=
  match afterFirstHeading field (splitLines content.data) with
  | none => none
  | some rest => valueAfter rest

/-- C4 counterexample: with two comment lines between the heading and the
value, the code skips only the first comment and returns the second
comment line itself as the value, while the claim says all comment-style
annotations are skipped and AVAILABLE is returned. -/
theorem C4_counterexample :
    parse_status_field "## Status\n<!-- a -->\n<!-- b -->\nAVAILABLE\n" "Status" =
      some "<!-- b -->" ∧
    lookupFieldSpec "## Status\n<!-- a -->\n<!-- b -->\nAVAILABLE\n" "Status" =
      some "AVAILABLE" ∧
    (some "<!-- b -->" : Option String) ≠ some "AVAILABLE" := by
  refine ⟨by decide, by decide, by decide⟩

/-- No character compares equal to the hash under ASCII case folding except
the hash itself. -/
theorem ciEq_hash_false (c : Char) (h : c ≠ '#') : ciEq '#' c = false := by
  unfold ciEq
  have h1 : ('#' == c) = false := by
    rw [beq_eq_false_iff_ne]
    exact fun hx => h hx.symm
  have h2 : isAsciiUpper '#' = false := by decide
  rw [h1, h2]
  simp only [Bool.false_and, Bool.false_or, Bool.or_false]
  cases hb : isAsciiUpper c with
  | false => simp
  | true =>
    have hc : 65 ≤ c.toNat := by
      unfold isAsciiUpper at hb
      simp only [Bool.and_eq_true, decide_eq_true_eq] at hb
      exact hb.1
    simp only [Bool.true_and]
    rw [beq_eq_false_iff_ne]
    have h35 : Char.toNat '#' = 35 := rfl
    rw [h35]
    omega

/-- The heading pattern cannot match in text containing no hash mark. -/
theorem searchCapture_none_of_no_hash (field : List Char) :
    ∀ cs : List Char, (∀ c ∈ cs, c ≠ '#') → searchCapture field cs = none := by
  intro cs
  induction cs with
  | nil => intro _; rfl
  | cons c cs ih =>
    intro h
    have hc : ciEq '#' c = false := ciEq_hash_false c (h c (List.mem_cons_self c cs))
    have hpat : matchPatternAt field (c :: cs) = none := by
      unfold matchPatternAt matchLitCI
      rw [hc]
      simp
    unfold searchCapture
    rw [hpat]
    exact ih (fun d hd => h d (List.mem_cons_of_mem c hd))

/-- C4 amended: the lookup never returns a brace-wrapped placeholder value;
a document without any hash mark (hence without any matching heading)
yields absent; the first non-empty line after the first matching heading
is returned, found case-insensitively, except that at most ONE intervening
comment-style annotation is skipped (a second comment line is itself
returned as the value) and the value is truncated at a hash character. -/
theorem C4_field_lookup :
    (∀ content field v, parse_status_field content field = some v →
      (headIsChar '\x7b' v.data && lastIsChar '\x7d' v.data) = false) ∧
    (∀ content field, (∀ c ∈ content.data, c ≠ '#') →
      parse_status_field content field = none) ∧
    parse_status_field "## Status\nAVAILABLE\n" "Status" = some "AVAILABLE" ∧
    parse_status_field "## STATUS\nok\n" "Status" = some "ok" ∧
    parse_status_field "## Status\n\x7bstatus\x7d\n" "Status" = none ∧
    parse_status_field "## Status\n<!-- choose one -->\nWORKING\n" "Status" =
      some "WORKING" ∧
    parse_status_field "## Status\n<!-- a -->\n<!-- b -->\nAVAILABLE\n" "Status" =
      some "<!-- b -->" ∧
    parse_status_field "## Status\nfoo#bar\n" "Status" = some "foo" := by
  refine ⟨?_, ?_, by decide, by decide, by decide, by decide, by decide, by decide⟩
  · intro content field v hv
    unfold parse_status_field at hv
    cases hs : searchCapture field.data content.data with
    | none =>
      rw [hs] at hv
      exact absurd hv (by simp)
    | some w =>
      rw [hs] at hv
      split at hv
      · exact absurd hv (by simp)
      · split at hv
        · exact absurd hv (by simp)
        · rename_i hcond
          have hv2 := Option.some.inj hv
          rw [← hv2]
          exact Bool.eq_false_iff.mpr hcond
  · intro content field h
    unfold parse_status_field
    rw [searchCapture_none_of_no_hash field.data content.data h]

/-! ## Theorems: status update merge (C6) -/

/-- Setting a key makes lookup of that key return the new value. -/
theorem getField_setField_eq (r : StatusRecord) (k : String) (v : JVal) :
    getField (setField r k v) k = some v := by
  induction r with
  | nil => simp [setField, getField]
  | cons p ps ih =>
    by_cases hp : p.1 == k
    · simp [setField, hp, getField]
    · simp only [setField, hp, Bool.false_eq_true, if_false, getField, ih]

/-- Setting one key leaves lookups of other keys unchanged. -/
theorem getField_setField_ne (r : StatusRecord) (k k2 : String) (v : JVal)
    (h : k2 ≠ k) : getField (setField r k v) k2 = getField r k2 := by
  have h1 : ¬ ((k == k2) = true) := by
    simp only [beq_iff_eq]
    exact fun hx => h hx.symm
  induction r with
  | nil =>
    simp only [setField, getField]
    rw [if_neg h1]
  | cons p ps ih =>
    by_cases hp : p.1 == k
    · have hk : p.1 = k := by simpa using hp
      have h2 : ¬ ((p.1 == k2) = true) := by
        simp only [beq_iff_eq, hk]
        exact fun hx => h hx.symm
      simp only [setField, hp, if_true, getField]
      rw [if_neg h1, if_neg h2]
    · simp only [setField, hp, Bool.false_eq_true, if_false, getField, ih]

/-- Merging extra fields leaves lookups of keys outside them unchanged. -/
theorem getField_foldl_setField (extra : StatusRecord) (k : String)
    (h : ∀ p ∈ extra, p.1 ≠ k) :
    ∀ d : StatusRecord,
      getField (extra.foldl (fun d p => setField d p.1 p.2) d) k = getField d k := by
  induction extra with
  | nil => intro d; rfl
  | cons p ps ih =>
    intro d
    rw [List.foldl_cons,
      ih (fun q hq => h q (List.mem_cons_of_mem p hq)) (setField d p.1 p.2),
      getField_setField_ne d p.1 k p.2 (fun hx => h p (List.mem_cons_self p ps) hx.symm)]

/-- Lookup at another key passes through a setOptStr step. -/
theorem getField_setOptStr (d : StatusRecord) (key : String) (o : Option String)
    (k : String) (h : k ≠ key) : getField (setOptStr d key o) k = getField d k := by
  cases o with
  | none => rfl
  | some t => exact getField_setField_ne d key k _ h

/-- Lookup at another key passes through a setOptIntOrNull step. -/
theorem getField_setOptIntOrNull (d : StatusRecord) (key : String) (o : Option Int)
    (k : String) (h : k ≠ key) : getField (setOptIntOrNull d key o) k = getField d k := by
  cases o with
  | none =>
    unfold setOptIntOrNull
    by_cases hd : hasField d key
    · rw [if_pos hd]
    · rw [if_neg hd]
      exact getField_setField_ne d key k _ h
  | some i => exact getField_setField_ne d key k _ h

/-- Lookup at another key passes through the conditional started_at step. -/
theorem getField_startedAtStep (d : StatusRecord) (now : String) (k : String)
    (h : k ≠ "started_at") :
    getField (if hasField d "started_at" then d
      else setField d "started_at" (JVal.str now)) k = getField d k := by
  by_cases hd : hasField d "started_at"
  · rw [if_pos hd]
  · rw [if_neg hd]
    exact getField_setField_ne d _ k _ h

/-- The field keys written or managed by update_status itself. -/
def statusManagedKeys : List String :=
  ["status", "details", "last_update", "pid", "agent_type", "name", "project",
   "current_issue", "current_pr", "started_at"]

/-- C6 counterexample: an update call whose extra fields name last_update
overrides the stamp (the dict literal merges **extra last), so the claim
that last_update is stamped on every call fails. -/
theorem C6_counterexample :
    getField (update_status [] "a" "" none none none none none
      [("last_update", JVal.str "OLD")] "T1" 42) "last_update" =
      some (JVal.str "OLD") ∧
    some (JVal.str "OLD") ≠ some (JVal.str "T1") := by
  refine ⟨rfl, by decide⟩

/-- C6 amended: update_status merges additively (any key outside the
managed fields and the extra fields keeps its prior value), stamps
last_update and pid on every call whose extra fields do not themselves
name them, sets started_at only if absent (when extras leave it alone),
and the two-call example update(status a, x=1) then update(status b, y=2)
accumulates x, y, the latest status, and the second timestamp. -/
theorem C6_status_update_merge (existing : StatusRecord) (status details : String)
    (agent_type name proj : Option String) (current_issue current_pr : Option Int)
    (extra : StatusRecord) (now : String) (pid : Int) :
    (∀ k, k ∉ statusManagedKeys → (∀ p ∈ extra, p.1 ≠ k) →
      getField (update_status existing status details agent_type name proj
        current_issue current_pr extra now pid) k = getField existing k) ∧
    ((∀ p ∈ extra, p.1 ≠ "last_update") →
      getField (update_status existing status details agent_type name proj
        current_issue current_pr extra now pid) "last_update" =
        some (JVal.str now)) ∧
    ((∀ p ∈ extra, p.1 ≠ "pid") →
      getField (update_status existing status details agent_type name proj
        current_issue current_pr extra now pid) "pid" = some (JVal.int pid)) ∧
    ((∀ p ∈ extra, p.1 ≠ "started_at") →
      (getField existing "started_at" = none →
        getField (update_status existing status details agent_type name proj
          current_issue current_pr extra now pid) "started_at" =
          some (JVal.str now)) ∧
      (∀ v, getField existing "started_at" = some v →
        getField (update_status existing status details agent_type name proj
          current_issue current_pr extra now pid) "started_at" = some v)) ∧
    (getField (update_status (update_status [] "a" "" none none none none none
          [("x", JVal.int 1)] "T1" 7) "b" "" none none none none none
          [("y", JVal.int 2)] "T2" 7) "x" = some (JVal.int 1) ∧
      getField (update_status (update_status [] "a" "" none none none none none
          [("x", JVal.int 1)] "T1" 7) "b" "" none none none none none
          [("y", JVal.int 2)] "T2" 7) "y" = some (JVal.int 2) ∧
      getField (update_status (update_status [] "a" "" none none none none none
          [("x", JVal.int 1)] "T1" 7) "b" "" none none none none none
          [("y", JVal.int 2)] "T2" 7) "status" = some (JVal.str "b") ∧
      getField (update_status (update_status [] "a" "" none none none none none
          [("x", JVal.int 1)] "T1" 7) "b" "" none none none none none
          [("y", JVal.int 2)] "T2" 7) "last_update" = some (JVal.str "T2") ∧
      getField (update_status (update_status [] "a" "" none none none none none
          [("x", JVal.int 1)] "T1" 7) "b" "" none none none none none
          [("y", JVal.int 2)] "T2" 7) "last_update" ≠
        getField (update_status [] "a" "" none none none none none
          [("x", JVal.int 1)] "T1" 7) "last_update") := by
  have hchain : ∀ k, k ≠ "agent_type" → k ≠ "name" → k ≠ "project" →
      k ≠ "current_issue" → k ≠ "current_pr" → (∀ p ∈ extra, p.1 ≠ k) →
      ∀ d : StatusRecord,
      getField (setOptIntOrNull (setOptIntOrNull (setOptStr (setOptStr (setOptStr
        (extra.foldl (fun d p => setField d p.1 p.2) d)
        "agent_type" agent_type) "name" name) "project" proj)
        "current_issue" current_issue) "current_pr" current_pr) k = getField d k := by
    intro k h1 h2 h3 h4 h5 hex d
    rw [getField_setOptIntOrNull _ _ _ _ h5, getField_setOptIntOrNull _ _ _ _ h4,
      getField_setOptStr _ _ _ _ h3, getField_setOptStr _ _ _ _ h2,
      getField_setOptStr _ _ _ _ h1, getField_foldl_setField extra k hex d]
  refine ⟨?_, ?_, ?_, ?_, ?_⟩
  · intro k hk hex
    simp only [statusManagedKeys, List.mem_cons, List.not_mem_nil, or_false,
      not_or] at hk
    obtain ⟨h1, h2, h3, h4, h5, h6, h7, h8, h9, h10⟩ := hk
    unfold update_status
    rw [getField_startedAtStep _ _ _ h10, hchain k h5 h6 h7 h8 h9 hex,
      getField_setField_ne _ _ _ _ h4, getField_setField_ne _ _ _ _ h3,
      getField_setField_ne _ _ _ _ h2, getField_setField_ne _ _ _ _ h1]
  · intro hex
    unfold update_status
    rw [getField_startedAtStep _ _ _ (by decide),
      hchain "last_update" (by decide) (by decide) (by decide) (by decide) (by decide) hex,
      getField_setField_ne _ _ _ _ (by decide), getField_setField_eq]
  · intro hex
    unfold update_status
    rw [getField_startedAtStep _ _ _ (by decide),
      hchain "pid" (by decide) (by decide) (by decide) (by decide) (by decide) hex,
      getField_setField_eq]
  · intro hex
    have hpre :
        getField (setOptIntOrNull (setOptIntOrNull (setOptStr (setOptStr (setOptStr
          (extra.foldl (fun d p => setField d p.1 p.2)
            (setField (setField (setField (setField existing
              "status" (JVal.str status)) "details" (JVal.str details))
              "last_update" (JVal.str now)) "pid" (JVal.int pid)))
          "agent_type" agent_type) "name" name) "project" proj)
          "current_issue" current_issue) "current_pr" current_pr) "started_at" =
          getField existing "started_at" := by
      rw [hchain "started_at" (by decide) (by decide) (by decide) (by decide)
        (by decide) hex,
        getField_setField_ne _ _ _ _ (by decide), getField_setField_ne _ _ _ _ (by decide),
        getField_setField_ne _ _ _ _ (by decide), getField_setField_ne _ _ _ _ (by decide)]
    constructor
    · intro habsent
      unfold update_status
      have hhas : hasField (setOptIntOrNull (setOptIntOrNull (setOptStr (setOptStr
          (setOptStr (extra.foldl (fun d p => setField d p.1 p.2)
            (setField (setField (setField (setField existing
              "status" (JVal.str status)) "details" (JVal.str details))
              "last_update" (JVal.str now)) "pid" (JVal.int pid)))
          "agent_type" agent_type) "name" name) "project" proj)
          "current_issue" current_issue) "current_pr" current_pr) "started_at" = false := by
        unfold hasField
        rw [hpre, habsent]
        rfl
      rw [if_neg (by simp [hhas]), getField_setField_eq]
    · intro v hv
      unfold update_status
      have hhas : hasField (setOptIntOrNull (setOptIntOrNull (setOptStr (setOptStr
          (setOptStr (extra.foldl (fun d p => setField d p.1 p.2)
            (setField (setField (setField (setField existing
              "status" (JVal.str status)) "details" (JVal.str details))
              "last_update" (JVal.str now)) "pid" (JVal.int pid)))
          "agent_type" agent_type) "name" name) "project" proj)
          "current_issue" current_issue) "current_pr" current_pr) "started_at" = true := by
        unfold hasField
        rw [hpre, hv]
        rfl
      rw [if_pos hhas, hpre, hv]
  · exact ⟨by decide, by decide, by decide, by decide, by decide⟩

/-- C6 witness: the merge theorem applied to a concrete prior record, frame
key and stamped fields. -/
theorem C6_status_update_merge_witness :
    getField (update_status [("z", JVal.int 9)] "w" "" none none none none none
      [] "T0" 3) "z" = some (JVal.int 9) ∧
    getField (update_status [("z", JVal.int 9)] "w" "" none none none none none
      [] "T0" 3) "last_update" = some (JVal.str "T0") ∧
    getField (update_status [("z", JVal.int 9)] "w" "" none none none none none
      [] "T0" 3) "pid" = some (JVal.int 3) ∧
    getField (update_status [("z", JVal.int 9)] "w" "" none none none none none
      [] "T0" 3) "started_at" = some (JVal.str "T0") := by
  refine ⟨(C6_status_update_merge [("z", JVal.int 9)] "w" "" none none none none
      none [] "T0" 3).1 "z" (by decide) (by decide),
    (C6_status_update_merge [("z", JVal.int 9)] "w" "" none none none none
      none [] "T0" 3).2.1 (by decide),
    (C6_status_update_merge [("z", JVal.int 9)] "w" "" none none none none
      none [] "T0" 3).2.2.1 (by decide),
    ((C6_status_update_merge [("z", JVal.int 9)] "w" "" none none none none
      none [] "T0" 3).2.2.2.1 (by decide)).1 (by decide)⟩

/-- C4 witness: the field-lookup theorem applied to a hash-free document
and to a value produced by a successful parse. -/
theorem C4_field_lookup_witness :
    parse_status_field "plain text without heading" "Status" = none ∧
    (headIsChar '\x7b' "AVAILABLE".data && lastIsChar '\x7d' "AVAILABLE".data) = false := by
  refine ⟨C4_field_lookup.2.1 "plain text without heading" "Status" (by decide),
    C4_field_lookup.1 "## Status\nAVAILABLE\n" "Status" "AVAILABLE" (by decide)⟩

/-! ## Theorems: persisted-record reads (C7, C10) -/

/-- C7 counterexample: an OSError while reading an EXISTING session file is
not among the exceptions caught by get_session, so the call raises instead
of returning absent. -/
theorem C7_counterexample :
    get_session (fun _ => none) FileRead.ioError = Except.error () ∧
    (Except.error () : Except Unit (Option SessionInfo × Bool)) ≠
      Except.ok (none, false) ∧
    (Except.error () : Except Unit (Option SessionInfo × Bool)) ≠
      Except.ok (none, true) := by
  refine ⟨rfl, by simp, by simp⟩

/-- C7 amended: status reads return absent and never raise on missing,
unreadable (I/O error) and invalid-content files; session get returns
absent on a missing file (silently) and on invalid content (with the
diagnostic flag), but an I/O error on an existing session file
propagates. -/
theorem C7_read_absent (jp : String → Option StatusRecord)
    (js : String → Option SessionInfo) (s : String) :
    read_status jp FileRead.missing = none ∧
    read_status jp FileRead.ioError = none ∧
    (jp s = none → read_status jp (FileRead.ok s) = none) ∧
    get_session js FileRead.missing = Except.ok (none, false) ∧
    (js s = none → get_session js (FileRead.ok s) = Except.ok (none, true)) := by
  refine ⟨rfl, rfl, fun h => ?_, rfl, fun h => ?_⟩
  · show (match jp s with | none => none | some data => some data) = none
    rw [h]
  · show (match js s with
      | none => Except.ok (none, true)
      | some info => Except.ok (some info, false)) = Except.ok (none, true)
    rw [h]

/-- C7 witness: the read theorem applied to a parser that rejects the
concrete content. -/
theorem C7_read_absent_witness :
    read_status (fun _ => none) (FileRead.ok "bad json") = none ∧
    get_session (fun _ => none) (FileRead.ok "bad json") = Except.ok (none, true) :=
  ⟨(C7_read_absent (fun _ => none) (fun _ => none) "bad json").2.2.1 rfl,
   (C7_read_absent (fun _ => none) (fun _ => none) "bad json").2.2.2.2 rfl⟩

/-- C10: on a missing, unreadable or unparsable status file, is_agent_exited
returns False while is_agent_stale returns True (and neither raises) —
the two derived predicates default in opposite directions. -/
theorem C10_exited_vs_stale_defaults (jp : String → Option StatusRecord)
    (pt : String → Option Int) (now threshold : Int) (f : FileRead)
    (h : f = FileRead.missing ∨ f = FileRead.ioError ∨
      ∃ s, f = FileRead.ok s ∧ jp s = none) :
    is_agent_exited jp f = some false ∧
    is_agent_stale jp pt now threshold f = some true := by
  have hr : read_status jp f = none := by
    rcases h with rfl | rfl | ⟨s, rfl, hs⟩
    · rfl
    · rfl
    · show (match jp s with | none => none | some data => some data) = none
      rw [hs]
  unfold is_agent_exited is_agent_stale
  rw [hr]
  exact ⟨rfl, rfl⟩

/-- C10 witness: the defaults theorem applied to a missing file and to an
existing file whose content the JSON parser rejects. -/
theorem C10_exited_vs_stale_defaults_witness :
    is_agent_exited (fun _ => none) FileRead.missing = some false ∧
    is_agent_stale (fun _ => none) (fun _ => none) 0 300 FileRead.missing = some true ∧
    is_agent_exited (fun _ => none) (FileRead.ok "garbage") = some false ∧
    is_agent_stale (fun _ => none) (fun _ => none) 0 300 (FileRead.ok "garbage") =
      some true :=
  ⟨(C10_exited_vs_stale_defaults (fun _ => none) (fun _ => none) 0 300
      FileRead.missing (Or.inl rfl)).1,
   (C10_exited_vs_stale_defaults (fun _ => none) (fun _ => none) 0 300
      FileRead.missing (Or.inl rfl)).2,
   (C10_exited_vs_stale_defaults (fun _ => none) (fun _ => none) 0 300
      (FileRead.ok "garbage") (Or.inr (Or.inr ⟨"garbage", rfl, rfl⟩))).1,
   (C10_exited_vs_stale_defaults (fun _ => none) (fun _ => none) 0 300
      (FileRead.ok "garbage") (Or.inr (Or.inr ⟨"garbage", rfl, rfl⟩))).2⟩

/-! ## Theorems: path derivation (C9) -/

/-- C9 counterexample: the identities (proj, manager, "John Doe") and
(proj, manager, "john-doe") are distinct, yet both the session path and
the status path coincide, because the name is sanitized before being
embedded in the filename. -/
theorem C9_counterexample :
    ("John Doe" : String) ≠ "john-doe" ∧
    session_filename "manager" "John Doe" "proj" =
      session_filename "manager" "john-doe" "proj" ∧
    get_status_path "proj" "manager" (some "John Doe") =
      get_status_path "proj" "manager" (some "john-doe") := by
  refine ⟨by decide, by decide, by decide⟩

/-- C9 amended: the session and status paths are deterministic functions of
the identity, and they are collision-free up to name sanitization: with
the other components fixed, identities whose sanitized names differ get
different session filenames (likewise different prefixes or different
agent types give different filenames), status paths with different
prefixes differ, and status filenames of two names that are each nonempty
and distinct from the agent type and from "default" differ whenever their
sanitized forms differ. -/
theorem C9_path_determinism_and_collisions :
    (∀ tA tB nA nB pA pB : String, tA = tB → nA = nB → pA = pB →
      session_filename tA nA pA = session_filename tB nB pB ∧
      get_status_path pA tA (some nA) = get_status_path pB tB (some nB)) ∧
    (∀ t n1 n2 p : String, session_filename t n1 p = session_filename t n2 p →
      sanitize_name n1 = sanitize_name n2) ∧
    (∀ t n p1 p2 : String, session_filename t n p1 = session_filename t n p2 →
      p1 = p2) ∧
    (∀ t1 t2 n p : String, session_filename t1 n p = session_filename t2 n p →
      t1 = t2) ∧
    (∀ p1 p2 t1 t2 : String, ∀ n1 n2 : Option String,
      get_status_path p1 t1 n1 = get_status_path p2 t2 n2 → p1 = p2) ∧
    (∀ t n1 n2 : String,
      n1 ≠ "" ∧ n1 ≠ t ∧ n1 ≠ "default" →
      n2 ≠ "" ∧ n2 ≠ t ∧ n2 ≠ "default" →
      status_filename t (some n1) = status_filename t (some n2) →
      sanitize_name n1 = sanitize_name n2) := by
  refine ⟨?_, ?_, ?_, ?_, ?_, ?_⟩
  · intro tA tB nA nB pA pB h1 h2 h3
    rw [h1, h2, h3]
    exact ⟨rfl, rfl⟩
  · intro t n1 n2 p h
    have hd := congrArg String.data h
    simp only [session_filename, String.data_append, List.append_assoc] at hd
    have h1 := List.append_cancel_left hd
    have h2 := List.append_cancel_left h1
    have h3 := List.append_cancel_right h2
    exact String.ext h3
  · intro t n p1 p2 h
    have hd := congrArg String.data h
    simp only [session_filename, String.data_append, List.append_assoc] at hd
    have h1 := List.append_cancel_left (List.append_cancel_left
      (List.append_cancel_left (List.append_cancel_left hd)))
    have h2 := List.append_cancel_right h1
    exact String.ext h2
  · intro t1 t2 n p h
    have hd := congrArg String.data h
    simp only [session_filename, String.data_append, List.append_assoc] at hd
    exact String.ext (List.append_cancel_right hd)
  · intro p1 p2 t1 t2 n1 n2 h
    exact congrArg Prod.fst h
  · intro t n1 n2 h1 h2 h
    have h9 : (if n1 ≠ "" ∧ n1 ≠ t ∧ n1 ≠ "default" then
        t ++ "-" ++ sanitize_name n1 ++ ".status" else t ++ ".status") =
      (if n2 ≠ "" ∧ n2 ≠ t ∧ n2 ≠ "default" then
        t ++ "-" ++ sanitize_name n2 ++ ".status" else t ++ ".status") := h
    rw [if_pos h1, if_pos h2] at h9
    have hd := congrArg String.data h9
    simp only [String.data_append, List.append_assoc] at hd
    have hx := List.append_cancel_left (List.append_cancel_left hd)
    exact String.ext (List.append_cancel_right hx)

/-- C9 witness: the theorem applied at concrete identities whose sanitized
names, prefixes and types differ. -/
theorem C9_path_determinism_and_collisions_witness :
    session_filename "manager" "alice" "proj" = session_filename "manager" "alice" "proj" ∧
    (session_filename "manager" "alice" "proj" = session_filename "manager" "bob" "proj" →
      sanitize_name "alice" = sanitize_name "bob") ∧
    (status_filename "manager" (some "alice") = status_filename "manager" (some "bob") →
      sanitize_name "alice" = sanitize_name "bob") := by
  refine ⟨(C9_path_determinism_and_collisions.1 "manager" "manager" "alice" "alice"
      "proj" "proj" rfl rfl rfl).1,
    C9_path_determinism_and_collisions.2.1 "manager" "alice" "bob" "proj",
    C9_path_determinism_and_collisions.2.2.2.2.2 "manager" "alice" "bob"
      (by decide) (by decide)⟩
